import Mathlib

/-!
# TinyLink Link Registry — shallow embedding

Shallow embedding of the TinyLink URL-shortener's Link Registry:

* `src/app/api/links/route.ts` — `POST /api/links` (create) with its helpers
  `isValidUrl`, `isValidCode`, `generateRandomCode`, and `GET /api/links` (list);
* `src/unnamed/part_002` — `GET /:code` (resolve: redirect + click tracking);
* the Prisma schema `model Link` quoted in `src/EXPLANATION.md` (lines 87-99);
* `GET /api/links/:code` (get) and `DELETE /api/links/:code` (delete), whose
  handler file `app/api/links/[code]/route.ts` is not in the source tree and is
  modelled from the spec (see the doc comments of `getLink` and `deleteLink`).

The Prisma-backed database is modelled as a `List Link`; `prisma.link.findUnique`
on the unique `code` column becomes `findUnique` (first match), `prisma.link.create`
appends a row, and the atomic `update { clicks: { increment: 1 }, lastClicked }`
becomes `updateClickMap`.  Timestamps (`DateTime`) are modelled as `Nat`,
`Math.random` draws as an explicit `rand : Nat → Nat → Nat` oracle
(attempt index → position → raw draw, reduced mod the alphabet size exactly as
`Math.floor(Math.random() * chars.length)` lands in `[0, 62)`).
-/

namespace TinyLink

/-- The Prisma `model Link` (quoted in `src/EXPLANATION.md`):
`id String @id @default(cuid())`, `code String @unique`, `targetUrl String`,
`clicks Int @default(0)`, `lastClicked DateTime?`,
`createdAt DateTime @default(now())`, `updatedAt DateTime @updatedAt`. -/
structure Link where
  id : String
  code : String
  targetUrl : String
  clicks : Nat
  lastClicked : Option Nat
  createdAt : Nat
  updatedAt : Nat
deriving Repr, DecidableEq

/-- The registry state: the rows of the `Link` table. -/
abbrev Registry := List Link

/-- Error outcomes of the Registry operations, with the HTTP responses the
handlers produce for each:
`targetRequired` → 400 "Target URL is required";
`invalidTarget` → 400 "Invalid URL format";
`invalidCode` → 400 "Custom code must be 6-8 alphanumeric characters";
`codeConflict` → 409 "This short code is already taken";
`exhaustedCodeSpace` → 500 "Failed to generate unique code";
`notFound` → 404 "Link not found" / "Not found". -/
inductive ApiError where
  | targetRequired
  | invalidTarget
  | invalidCode
  | codeConflict
  | exhaustedCodeSpace
  | notFound
deriving Repr, DecidableEq

/-- The lookup `prisma.link.findUnique({ where: { code } })`: `code` is `@unique`, so the
lookup returns the (first) row whose `code` matches, if any. -/
def findUnique (reg : Registry) (c : String) : Option Link :=
  reg.find? (fun l => l.code = c)

/-! ## Validation helpers of `src/app/api/links/route.ts` -/

/-- ASCII `A`-`Z` or `a`-`z`. -/
def isAsciiAlphaChar (ch : Char) : Bool :=
  ('A' ≤ ch && ch ≤ 'Z') || ('a' ≤ ch && ch ≤ 'z')

/-- ASCII `0`-`9`. -/
def isAsciiDigitChar (ch : Char) : Bool :=
  '0' ≤ ch && ch ≤ '9'

/-- A character of the class `[A-Za-z0-9]`. -/
def isAlnumChar (ch : Char) : Bool :=
  isAsciiAlphaChar ch || isAsciiDigitChar ch

/-- Helper `isValidCode` of `src/app/api/links/route.ts`:
`/^[A-Za-z0-9]{6,8}$/.test(code)`. -/
def isValidCode (code : String) : Bool :=
  6 ≤ code.length && code.length ≤ 8 && code.toList.all isAlnumChar

/-- A scheme character per the WHATWG URL standard: ASCII alphanumeric,
`+`, `-` or `.`. -/
def isSchemeChar (ch : Char) : Bool :=
  isAlnumChar ch || ch = '+' || ch = '-' || ch = '.'

/-- Splits `scheme:rest` when the string starts with a valid URL scheme
(an ASCII alpha followed by scheme characters, terminated by `:`); the scheme
is lower-cased as the WHATWG parser does.  Returns `none` when there is no
valid scheme, in which case `new URL(string)` (with no base) throws. -/
def splitScheme (s : String) : Option (String × List Char) :=
  match s.toList with
  | [] => none
  | c :: rest =>
    if isAsciiAlphaChar c then
      match (c :: rest).dropWhile isSchemeChar with
      | ':' :: tail =>
        some (String.mk (((c :: rest).takeWhile isSchemeChar).map Char.toLower), tail)
      | _ => none
    else none

/-- The WHATWG special schemes that require a non-empty host (`file` is special
but allows an empty host). -/
def specialNonFileSchemes : List String := ["http", "https", "ws", "wss", "ftp"]

/-- Modelled from the spec: the WHATWG `URL` constructor used by `isValidUrl`
(`new URL(string)` with no base); the URL library itself is platform code and
not in the source tree.  The constructor succeeds iff the string starts with a
valid scheme and, for the special schemes `http https ws wss ftp`, a non-empty
host follows (after the authority slashes); `file:` URLs and non-special
schemes (`mailto:`, `data:`, …) parse with an empty or absent host, the latter
taking everything after the colon as an opaque path. -/
def urlParses (s : String) : Bool :=
  match splitScheme s with
  | none => false
  | some (scheme, rest) =>
    if specialNonFileSchemes.contains scheme then
      let afterSlashes := rest.dropWhile (fun ch => ch = '/' || ch = '\\')
      let host := afterSlashes.takeWhile
        (fun ch => !(ch = '/' || ch = '?' || ch = '#' || ch = '\\'))
      !host.isEmpty
    else
      true

/-- Helper `isValidUrl` of `src/app/api/links/route.ts`: `new URL(string)` succeeds. -/
def isValidUrl (s : String) : Bool := urlParses s

/-- Follows the spec's words, for comparison with the code:
"`targetURL` must parse as an absolute URL (non-empty, has a scheme and host)".
A string satisfies it when it has a valid scheme AND the characters after the
scheme (skipping authority slashes, up to a path/query/fragment delimiter)
form a non-empty host. -/
def specValidUrl (s : String) : Bool :=
  match splitScheme s with
  | none => false
  | some (_, rest) =>
    let afterSlashes := rest.dropWhile (fun ch => ch = '/' || ch = '\\')
    let host := afterSlashes.takeWhile
      (fun ch => !(ch = '/' || ch = '?' || ch = '#' || ch = '\\'))
    !host.isEmpty

/-! ## Code generation (`generateRandomCode` and the retry loop of `POST`) -/

/-- The alphabet of `generateRandomCode`:
`'ABCDEFGHIJKLMNOPQRSTUVWXYZabcdefghijklmnopqrstuvwxyz0123456789'`. -/
def chars : String :=
  "ABCDEFGHIJKLMNOPQRSTUVWXYZabcdefghijklmnopqrstuvwxyz0123456789"

/-- Helper `generateRandomCode` of `src/app/api/links/route.ts`: six iterations of
`code += chars.charAt(Math.floor(Math.random() * chars.length))`.  The random
draws are supplied by the oracle `rand`; `Math.floor(Math.random() * 62)` is
a value in `[0, 62)`, modelled as `rand i % 62`. -/
def generateRandomCode (rand : Nat → Nat) : String :=
  String.mk ((List.range 6).map (fun i => chars.toList.getD (rand i % 62) 'A'))

/-- The constant `const maxAttempts = 10` of the `POST` handler. -/
def maxAttempts : Nat := 10

/-- The `while (attempts < maxAttempts)` loop of the `POST` handler:
`code = generateRandomCode(); if (!existingLink) break; attempts++`.
`cand a` is the candidate drawn on the iteration that starts with
`attempts = a` (each iteration draws exactly once and `attempts` increments
exactly once per colliding iteration).  `none` models falling out of the loop
with `attempts >= maxAttempts`. -/
def genLoop (reg : Registry) (cand : Nat → String) (attempts : Nat) : Option String :=
  if attempts < maxAttempts then
    let code := cand attempts
    if (findUnique reg code).isSome then genLoop reg cand (attempts + 1)
    else some code
  else none
termination_by maxAttempts - attempts
decreasing_by simp_wf; omega

/-- The auto-generation path of `POST`: run the retry loop from `attempts = 0`;
falling out of the loop yields the 500 "Failed to generate unique code"
response (`exhaustedCodeSpace`). -/
def autoCode (reg : Registry) (rand : Nat → Nat → Nat) : Except ApiError String :=
  match genLoop reg (fun i => generateRandomCode (rand i)) 0 with
  | some c => Except.ok c
  | none => Except.error ApiError.exhaustedCodeSpace

/-- JavaScript truthiness of `body.code` in `if (customCode)`: `undefined` and
the empty string are falsy. -/
def codeTruthy (customCode : Option String) : Bool :=
  match customCode with
  | some s => s ≠ ""
  | none => false

/-- Code selection in `POST /api/links`: if `customCode` is truthy, validate its
format (400 `invalidCode`) and check `findUnique` for a conflict (409
`codeConflict`); otherwise auto-generate via the bounded retry loop. -/
def chooseCode (reg : Registry) (customCode : Option String)
    (rand : Nat → Nat → Nat) : Except ApiError String :=
  if codeTruthy customCode then
    let c := customCode.getD ("")
    if ¬ isValidCode c then Except.error ApiError.invalidCode
    else if (findUnique reg c).isSome then Except.error ApiError.codeConflict
    else Except.ok c
  else autoCode reg rand

/-! ## The Registry operations -/

/-- Handler `POST /api/links` (`src/app/api/links/route.ts`): validate `targetUrl`
(`!targetUrl` → 400 required, `!isValidUrl` → 400 invalid), choose the code
(custom-code validation/conflict or auto-generation), then
`prisma.link.create({ data: { code, targetUrl } })`, whose schema defaults fill
`clicks = 0`, `lastClicked = null`, `createdAt = now`, `updatedAt = now`
(`@updatedAt` stamps creation too) and a fresh cuid `id` (modelled as the
parameter `newId`).  Returns the new registry state and the created Link;
on error the state is returned unchanged (no write precedes a failure). -/
def create (reg : Registry) (targetUrl : Option String) (customCode : Option String)
    (rand : Nat → Nat → Nat) (now : Nat) (newId : String) :
    Registry × Except ApiError Link :=
  match targetUrl with
  | none => (reg, Except.error ApiError.targetRequired)
  | some t =>
    if t = "" then (reg, Except.error ApiError.targetRequired)
    else if ¬ isValidUrl t then (reg, Except.error ApiError.invalidTarget)
    else
      match chooseCode reg customCode rand with
      | Except.error e => (reg, Except.error e)
      | Except.ok c =>
        let link : Link :=
          { id := newId, code := c, targetUrl := t, clicks := 0,
            lastClicked := none, createdAt := now, updatedAt := now }
        (reg ++ [link], Except.ok link)

/-- The atomic `prisma.link.update({ where: { code }, data: { clicks:
{ increment: 1 }, lastClicked: new Date() } })` of the redirect handler
(`src/unnamed/part_002`): bump the matching row's counter by one at the
storage layer and stamp `lastClicked`; the schema's `@updatedAt` refreshes
`updatedAt` on the same write.  All other columns are untouched. -/
def updateClickMap (reg : Registry) (c : String) (now : Nat) : Registry :=
  reg.map (fun l =>
    if l.code = c then
      { l with clicks := l.clicks + 1, lastClicked := some now, updatedAt := now }
    else l)

/-- Handler `GET /:code` (`src/unnamed/part_002`): `findUnique` by code; absent → 404
(`notFound`, no write); present → the atomic click update, then a 302 redirect
to the `targetUrl` read from the fetched row.  Returns the new registry state
and the redirect target (or the error). -/
def resolve (reg : Registry) (c : String) (now : Nat) :
    Registry × Except ApiError String :=
  match findUnique reg c with
  | none => (reg, Except.error ApiError.notFound)
  | some link => (updateClickMap reg c now, Except.ok link.targetUrl)

/-- Modelled from the spec: `GET /api/links/:code` — the handler file
`app/api/links/[code]/route.ts` is not in the source tree (only quoted in
`src/EXPLANATION.md`).  Per the spec: "Pure read, no mutation, no side
effects. Fails with `NotFound` if no live Link has that code." -/
def getLink (reg : Registry) (c : String) : Except ApiError Link :=
  match findUnique reg c with
  | none => Except.error ApiError.notFound
  | some link => Except.ok link

/-- Modelled from the spec: `DELETE /api/links/:code` — the handler file
`app/api/links/[code]/route.ts` is not in the source tree (only quoted in
`src/EXPLANATION.md`).  Per the spec: "Removes the Link permanently (hard
delete, no recovery). Fails with `NotFound` if no live Link has that code." -/
def deleteLink (reg : Registry) (c : String) : Registry × Except ApiError Unit :=
  match findUnique reg c with
  | none => (reg, Except.error ApiError.notFound)
  | some _ => (reg.filter (fun l => ¬ l.code = c), Except.ok ())

/-- Handler `GET /api/links` (`src/app/api/links/route.ts`):
`prisma.link.findMany({ orderBy: { createdAt: 'desc' } })`. -/
def listLinks (reg : Registry) : List Link :=
  reg.mergeSort (fun a b => b.createdAt ≤ a.createdAt)

/-! ## Helper lemmas -/

/-- The field update applied by the click-tracking write. -/
def bumpClick (now : Nat) (l : Link) : Link :=
  { l with clicks := l.clicks + 1, lastClicked := some now, updatedAt := now }

theorem updateClickMap_eq_map (reg : Registry) (c : String) (now : Nat) :
    updateClickMap reg c now =
      reg.map (fun l => if l.code = c then bumpClick now l else l) := by
  unfold updateClickMap bumpClick
  rfl

theorem findUnique_updateClickMap (reg : Registry) (c : String) (now : Nat) :
    findUnique (updateClickMap reg c now) c =
      (findUnique reg c).map (bumpClick now) := by
  induction reg with
  | nil => rfl
  | cons hd tl ih =>
    by_cases h : hd.code = c
    · simp [findUnique, updateClickMap, List.find?_cons, h, bumpClick]
    · simpa [findUnique, updateClickMap, List.find?_cons, h] using ih

theorem mem_updateClickMap_of_ne (reg : Registry) (c : String) (now : Nat)
    (l : Link) (hl : l ∈ reg) (hne : l.code ≠ c) :
    l ∈ updateClickMap reg c now := by
  unfold updateClickMap
  have := List.mem_map_of_mem
    (fun l => if l.code = c then
      { l with clicks := l.clicks + 1, lastClicked := some now, updatedAt := now }
      else l) hl
  simpa [hne] using this

theorem length_updateClickMap (reg : Registry) (c : String) (now : Nat) :
    (updateClickMap reg c now).length = reg.length := by
  unfold updateClickMap
  exact List.length_map _ _

theorem findUnique_filter_self (reg : Registry) (c : String) :
    findUnique (reg.filter (fun l => ¬ l.code = c)) c = none := by
  unfold findUnique
  cases h : (reg.filter (fun l => ¬ l.code = c)).find? (fun l => l.code = c) with
  | none => rfl
  | some l =>
    have hp := List.find?_some h
    have hmem := List.mem_of_find?_eq_some h
    have hfilter := (List.mem_filter.mp hmem).2
    simp at hp hfilter
    exact absurd hp hfilter

theorem isValidCode_ne_empty {c : String} (h : isValidCode c = true) : c ≠ "" := by
  intro hc
  subst hc
  simp [isValidCode] at h

theorem findUnique_append_right (reg : Registry) (l : Link) (c : String)
    (h : findUnique reg c = none) (hc : l.code = c) :
    findUnique (reg ++ [l]) c = some l := by
  unfold findUnique at h ⊢
  rw [List.find?_append, h]
  simp [hc]

theorem deleteLink_ok {reg reg' : Registry} {c : String}
    (h : deleteLink reg c = (reg', Except.ok ())) :
    reg' = reg.filter (fun l => ¬ l.code = c) ∧ findUnique reg' c = none := by
  cases hf : findUnique reg c with
  | none => simp [deleteLink, hf] at h
  | some l =>
    have hd : deleteLink reg c =
        (reg.filter (fun l => ¬ l.code = c), Except.ok ()) := by
      simp [deleteLink, hf]
    rw [hd] at h
    have h1 : reg.filter (fun l => ¬ l.code = c) = reg' := congrArg Prod.fst h
    exact ⟨h1.symm, h1 ▸ findUnique_filter_self reg c⟩

/-! ## C2 : resolve semantics -/

/-- A concrete Link used by the witnesses. -/
def linkEx : Link :=
  { id := "id1", code := "abc123", targetUrl := "https://example.com/",
    clicks := 3, lastClicked := none, createdAt := 1, updatedAt := 1 }

/-- C2: for every code and registry state, if no live Link has the code then
`resolve` fails with `NotFound` and the state is unchanged; if a live Link has
the code, `resolve` increments that Link's `clicks` by exactly 1, sets its
`lastClicked` and `updatedAt` to the resolution time, leaves its other fields
unchanged (the remaining fields of the updated row are those of `bumpClick`,
which touches nothing else), leaves every other Link in place, and returns
that Link's `targetUrl`. -/
theorem resolve_meets_spec (reg : Registry) (c : String) (now : Nat) :
    (findUnique reg c = none →
      resolve reg c now = (reg, Except.error ApiError.notFound)) ∧
    (∀ link, findUnique reg c = some link →
      (resolve reg c now).2 = Except.ok link.targetUrl ∧
      findUnique (resolve reg c now).1 c = some (bumpClick now link) ∧
      (∀ l ∈ reg, l.code ≠ c → l ∈ (resolve reg c now).1) ∧
      (resolve reg c now).1.length = reg.length) := by
  constructor
  · intro h
    simp [resolve, h]
  · intro link h
    refine ⟨by simp [resolve, h], ?_, ?_, ?_⟩
    · have := findUnique_updateClickMap reg c now
      simp [resolve, h] at this ⊢
      exact this
    · intro l hl hne
      simpa [resolve, h] using mem_updateClickMap_of_ne reg c now l hl hne
    · simpa [resolve, h] using length_updateClickMap reg c now

/-- Witness for C2: both branches of `resolve_meets_spec` exercised at concrete
inputs — the empty registry (NotFound, state unchanged) and a one-Link registry
(click bumped, timestamps stamped, target returned). -/
theorem resolve_meets_spec_witness :
    resolve [] ("abc123") 9 = ([], Except.error ApiError.notFound) ∧
    ((resolve [linkEx] ("abc123") 9).2 = Except.ok linkEx.targetUrl ∧
      findUnique (resolve [linkEx] ("abc123") 9).1 ("abc123") =
        some (bumpClick 9 linkEx) ∧
      (∀ l ∈ [linkEx], l.code ≠ "abc123" → l ∈ (resolve [linkEx] ("abc123") 9).1) ∧
      (resolve [linkEx] ("abc123") 9).1.length = [linkEx].length) :=
  ⟨(resolve_meets_spec [] ("abc123") 9).1 rfl,
   (resolve_meets_spec [linkEx] ("abc123") 9).2 linkEx rfl⟩

/-! ## C7 : delete error semantics -/

/-- C7 (spec-modelled `deleteLink`): `delete(code)` fails with `NotFound` — and
with no other error kind — exactly when no live Link has the code, and a second
delete immediately after a successful delete yields `NotFound` again (with the
state left as the first delete produced it), not a second success. -/
theorem delete_notfound_semantics (reg : Registry) (c : String) :
    (findUnique reg c = none →
      deleteLink reg c = (reg, Except.error ApiError.notFound)) ∧
    (∀ reg', deleteLink reg c = (reg', Except.ok ()) →
      deleteLink reg' c = (reg', Except.error ApiError.notFound)) := by
  constructor
  · intro h
    simp [deleteLink, h]
  · intro reg' h
    cases hf : findUnique reg c with
    | none => simp [deleteLink, hf] at h
    | some l =>
      have hd : deleteLink reg c =
          (reg.filter (fun l => ¬ l.code = c), Except.ok ()) := by
        simp [deleteLink, hf]
      rw [hd] at h
      have h1 : reg.filter (fun l => ¬ l.code = c) = reg' := congrArg Prod.fst h
      have hnone : findUnique reg' c = none := h1 ▸ findUnique_filter_self reg c
      simp [deleteLink, hnone]

/-- Witness for C7: deleting an absent code yields `NotFound`; after deleting
`"abc123"` from a one-Link registry, a second delete of the same code yields
`NotFound` on the emptied registry. -/
theorem delete_notfound_semantics_witness :
    deleteLink [] ("abc123") = ([], Except.error ApiError.notFound) ∧
    deleteLink [] ("abc123") = ([], Except.error ApiError.notFound) :=
  ⟨(delete_notfound_semantics [] ("abc123")).1 rfl,
   (delete_notfound_semantics [linkEx] ("abc123")).2 [] rfl⟩

/-! ## C3 : delete frees the code -/

/-- C3 (delete spec-modelled, resolve and create from the source): after a
successful `delete(code)`, `resolve(code)` fails with `NotFound` without
touching the state, `get(code)` fails with `NotFound`, and — nothing else
intervening — a `create` that requests the same code (well-formed, with a
valid target) succeeds, binding exactly that code: the deleted Link's code is
immediately available for reuse. -/
theorem delete_frees_code (reg reg' : Registry) (c : String)
    (h : deleteLink reg c = (reg', Except.ok ())) :
    (∀ now, resolve reg' c now = (reg', Except.error ApiError.notFound)) ∧
    getLink reg' c = Except.error ApiError.notFound ∧
    (∀ u rand now newId, isValidUrl u = true → u ≠ "" → isValidCode c = true →
      ∃ link, create reg' (some u) (some c) rand now newId =
        (reg' ++ [link], Except.ok link) ∧ link.code = c) := by
  obtain ⟨-, hnone⟩ := deleteLink_ok h
  refine ⟨fun now => by simp [resolve, hnone], by simp [getLink, hnone], ?_⟩
  intro u rand now newId hu hune hc
  refine ⟨{ id := newId, code := c, targetUrl := u, clicks := 0,
            lastClicked := none, createdAt := now, updatedAt := now }, ?_, rfl⟩
  have hcne : c ≠ "" := isValidCode_ne_empty hc
  simp [create, chooseCode, codeTruthy, hune, hu, hcne, hc, hnone]

/-- Witness for C3: delete the one Link of a one-Link registry, then resolve,
get and re-create its code `"abc123"` on the emptied registry. -/
theorem delete_frees_code_witness :
    resolve [] ("abc123") 9 = ([], Except.error ApiError.notFound) ∧
    getLink [] ("abc123") = Except.error ApiError.notFound ∧
    (∃ link, create [] (some ("https://example.com/")) (some ("abc123"))
        (fun _ _ => 0) 3 ("id9") = ([] ++ [link], Except.ok link) ∧
      link.code = "abc123") := by
  have h := delete_frees_code [linkEx] [] ("abc123") rfl
  exact ⟨h.1 9, h.2.1,
    h.2.2 ("https://example.com/") (fun _ _ => 0) 3 ("id9")
      (by decide) (by decide) (by decide)⟩

/-! ## C4 : custom-code conflicts -/

/-- C4: when the requested code is already held by a live Link, `create` fails
with `CodeConflict` leaving the state unchanged — it never falls back to
auto-generation; consequently two successive creates requesting the same free
code yield exactly one success (binding that code) and one `CodeConflict`,
with the second create leaving the state exactly as the first left it. -/
theorem duplicate_custom_code_conflict (reg : Registry) (c u1 u2 : String)
    (rand1 rand2 : Nat → Nat → Nat) (now1 now2 : Nat) (id1 id2 : String)
    (hc : isValidCode c = true)
    (hu1 : isValidUrl u1 = true) (hu1e : u1 ≠ "")
    (hu2 : isValidUrl u2 = true) (hu2e : u2 ≠ "") :
    (∀ l, findUnique reg c = some l →
      create reg (some u1) (some c) rand1 now1 id1 =
        (reg, Except.error ApiError.codeConflict)) ∧
    (findUnique reg c = none →
      ∃ reg' link,
        create reg (some u1) (some c) rand1 now1 id1 = (reg', Except.ok link) ∧
        link.code = c ∧
        create reg' (some u2) (some c) rand2 now2 id2 =
          (reg', Except.error ApiError.codeConflict)) := by
  have hcne : c ≠ "" := isValidCode_ne_empty hc
  constructor
  · intro l hl
    simp [create, chooseCode, codeTruthy, hu1, hu1e, hcne, hc, hl]
  · intro hnone
    set link : Link :=
      { id := id1, code := c, targetUrl := u1, clicks := 0,
        lastClicked := none, createdAt := now1, updatedAt := now1 } with hlink
    refine ⟨reg ++ [link], link, ?_, rfl, ?_⟩
    · simp [create, chooseCode, codeTruthy, hu1, hu1e, hcne, hc, hnone, hlink]
    · have hfound : findUnique (reg ++ [link]) c = some link :=
        findUnique_append_right reg link c hnone rfl
      simp [create, chooseCode, codeTruthy, hu2, hu2e, hcne, hc, hfound]

/-- Witness for C4: on the empty registry, create `"abc123"` twice with valid
targets; also exercise the conflict branch directly against `[linkEx]`. -/
theorem duplicate_custom_code_conflict_witness :
    create [linkEx] (some ("https://a.example/")) (some ("abc123"))
        (fun _ _ => 0) 1 ("idA") =
      ([linkEx], Except.error ApiError.codeConflict) ∧
    (∃ reg' link,
      create [] (some ("https://a.example/")) (some ("abc123"))
          (fun _ _ => 0) 1 ("idA") = (reg', Except.ok link) ∧
      link.code = "abc123" ∧
      create reg' (some ("https://b.example/")) (some ("abc123"))
          (fun _ _ => 0) 2 ("idB") =
        (reg', Except.error ApiError.codeConflict)) := by
  constructor
  · exact (duplicate_custom_code_conflict [linkEx] ("abc123")
      "https://a.example/" "https://b.example/" (fun _ _ => 0) (fun _ _ => 0)
      1 2 ("idA") "idB" (by decide) (by decide) (by decide) (by decide)
      (by decide)).1 linkEx rfl
  · exact (duplicate_custom_code_conflict [] ("abc123")
      "https://a.example/" "https://b.example/" (fun _ _ => 0) (fun _ _ => 0)
      1 2 ("idA") "idB" (by decide) (by decide) (by decide) (by decide)
      (by decide)).2 rfl

/-! ## Code-generation lemmas -/

theorem toList_mk (l : List Char) : (String.mk l).toList = l := rfl

theorem isAlnumChar_chars_getD (n : Nat) :
    isAlnumChar (chars.toList.getD (n % 62) 'A') = true := by
  have hall : ∀ k : Fin 62, isAlnumChar (chars.toList.getD k.val 'A') = true := by
    decide
  exact hall ⟨n % 62, Nat.mod_lt _ (by decide)⟩

theorem length_generateRandomCode (rand : Nat → Nat) :
    (generateRandomCode rand).length = 6 := by
  simp [generateRandomCode]

theorem all_alnum_generateRandomCode (rand : Nat → Nat) :
    (generateRandomCode rand).toList.all isAlnumChar = true := by
  unfold generateRandomCode
  rw [toList_mk]
  rw [List.all_eq_true]
  intro x hx
  obtain ⟨i, -, rfl⟩ := List.mem_map.mp hx
  exact isAlnumChar_chars_getD (rand i)

theorem isValidCode_generateRandomCode (rand : Nat → Nat) :
    isValidCode (generateRandomCode rand) = true := by
  unfold isValidCode
  rw [length_generateRandomCode]
  simpa using all_alnum_generateRandomCode rand

theorem genLoop_sound (reg : Registry) (cand : Nat → String) :
    ∀ (k a : Nat), maxAttempts - a ≤ k → ∀ code,
      genLoop reg cand a = some code →
      findUnique reg code = none ∧
        ∃ i, a ≤ i ∧ i < maxAttempts ∧ code = cand i := by
  intro k
  induction k with
  | zero =>
    intro a ha code h
    have haa : ¬ a < maxAttempts := by omega
    rw [genLoop] at h
    simp [haa] at h
  | succ n ih =>
    intro a ha code h
    rw [genLoop] at h
    by_cases hlt : a < maxAttempts
    · simp only [hlt, if_true] at h
      by_cases hex : (findUnique reg (cand a)).isSome
      · simp only [hex, if_true] at h
        obtain ⟨hn, i, hi1, hi2, hc⟩ := ih (a + 1) (by omega) code h
        exact ⟨hn, i, by omega, hi2, hc⟩
      · simp only [hex, if_false] at h
        have hcode : cand a = code := by
          simpa using h
        refine ⟨?_, a, Nat.le_refl a, hlt, hcode.symm⟩
        rw [← hcode]
        exact Option.not_isSome_iff_eq_none.mp hex
    · simp [hlt] at h

theorem genLoop_none_iff (reg : Registry) (cand : Nat → String) :
    ∀ (k a : Nat), maxAttempts - a ≤ k →
      (genLoop reg cand a = none ↔
        ∀ i, a ≤ i → i < maxAttempts →
          (findUnique reg (cand i)).isSome = true) := by
  intro k
  induction k with
  | zero =>
    intro a ha
    have haa : ¬ a < maxAttempts := by omega
    rw [genLoop]
    simp only [haa, if_false]
    constructor
    · intro _ i hi1 hi2
      omega
    · intro _
      trivial
  | succ n ih =>
    intro a ha
    rw [genLoop]
    by_cases hlt : a < maxAttempts
    · by_cases hex : (findUnique reg (cand a)).isSome
      · simp only [hlt, if_true, hex]
        rw [ih (a + 1) (by omega)]
        constructor
        · intro h i hi1 hi2
          rcases Nat.eq_or_lt_of_le hi1 with heq | hgt
          · exact heq ▸ hex
          · exact h i (by omega) hi2
        · intro h i hi1 hi2
          exact h i (by omega) hi2
      · simp only [hlt, if_true, hex, if_false]
        constructor
        · intro h
          exact absurd h (by simp)
        · intro h
          exact absurd (h a (Nat.le_refl a) hlt) (by simpa using hex)
    · simp only [hlt, if_false]
      constructor
      · intro _ i hi1 hi2
        omega
      · intro _
        trivial

theorem genLoop_congr (reg : Registry) (cand cand' : Nat → String)
    (hagree : ∀ i, i < maxAttempts → cand i = cand' i) :
    ∀ (k a : Nat), maxAttempts - a ≤ k →
      genLoop reg cand a = genLoop reg cand' a := by
  intro k
  induction k with
  | zero =>
    intro a ha
    have haa : ¬ a < maxAttempts := by omega
    conv_lhs => rw [genLoop]
    conv_rhs => rw [genLoop]
    simp [haa]
  | succ n ih =>
    intro a ha
    conv_lhs => rw [genLoop]
    conv_rhs => rw [genLoop]
    by_cases hlt : a < maxAttempts
    · simp only [hlt, if_true, hagree a hlt]
      by_cases hex : (findUnique reg (cand' a)).isSome
      · simp [hex, ih (a + 1) (by omega)]
      · simp [hex]
    · simp [hlt]

/-! ## C5 : bounded auto-generation -/

/-- C5: with a valid target and no requested code, the bound on candidate
draws is exactly `maxAttempts = 10`; `create` fails with `ExhaustedCodeSpace`
iff every one of the candidates drawn for attempts `0..9` collides with a live
Link's code (so it neither gives up while some drawn candidate was free, nor
succeeds when all ten collide); every candidate is `generateRandomCode` output
— exactly 6 characters, each from the 62-character alphabet `[A-Za-z0-9]` —
and the outcome depends on no draw beyond the first 10 (no 11th retry). -/
theorem auto_generation_bounded (reg : Registry) (u : String)
    (rand : Nat → Nat → Nat) (now : Nat) (newId : String)
    (hu : isValidUrl u = true) (hue : u ≠ "") :
    maxAttempts = 10 ∧
    ((create reg (some u) none rand now newId).2 =
        Except.error ApiError.exhaustedCodeSpace ↔
      ∀ i, i < maxAttempts →
        (findUnique reg (generateRandomCode (rand i))).isSome = true) ∧
    (∀ i, (generateRandomCode (rand i)).length = 6 ∧
      (generateRandomCode (rand i)).toList.all isAlnumChar = true) ∧
    (∀ rand' : Nat → Nat → Nat,
      (∀ i, i < maxAttempts → rand i = rand' i) →
      create reg (some u) none rand now newId =
        create reg (some u) none rand' now newId) := by
  refine ⟨rfl, ?_, ?_, ?_⟩
  · have hiff := genLoop_none_iff reg (fun i => generateRandomCode (rand i))
      maxAttempts 0 (by omega)
    simp only [Nat.zero_le, true_implies] at hiff
    constructor
    · intro h i hi
      cases hgen : genLoop reg (fun i => generateRandomCode (rand i)) 0 with
      | none => exact (hiff.mp hgen) i hi
      | some c =>
        simp [create, hue, hu, chooseCode, codeTruthy, autoCode, hgen] at h
    · intro h
      have hnone : genLoop reg (fun i => generateRandomCode (rand i)) 0 = none :=
        hiff.mpr h
      simp [create, hue, hu, chooseCode, codeTruthy, autoCode, hnone]
  · intro i
    exact ⟨length_generateRandomCode (rand i), all_alnum_generateRandomCode (rand i)⟩
  · intro rand' hagree
    have hg : genLoop reg (fun i => generateRandomCode (rand i)) 0 =
        genLoop reg (fun i => generateRandomCode (rand' i)) 0 :=
      genLoop_congr reg _ _ (fun i hi => by rw [hagree i hi]) maxAttempts 0 (by omega)
    simp [create, hue, hu, chooseCode, codeTruthy, autoCode, hg]

/-- A Link whose code `"AAAAAA"` collides with every all-zero draw. -/
def linkAAA : Link :=
  { id := "idA", code := "AAAAAA", targetUrl := "https://a.example/",
    clicks := 0, lastClicked := none, createdAt := 0, updatedAt := 0 }

/-- Witness for C5: with every draw returning index 0, each candidate is
`"AAAAAA"`; against a registry already holding `"AAAAAA"` all ten attempts
collide and `create` surfaces `ExhaustedCodeSpace`; the candidate has length
6 over the alphabet. -/
theorem auto_generation_bounded_witness :
    (create [linkAAA] (some ("https://example.com/")) none
        (fun _ _ => 0) 1 ("id2")).2 =
      Except.error ApiError.exhaustedCodeSpace ∧
    (generateRandomCode (fun _ => 0)).length = 6 := by
  have h := auto_generation_bounded [linkAAA]
    "https://example.com/" (fun _ _ => 0) 1 ("id2") (by decide) (by decide)
  exact ⟨h.2.1.mpr (by decide), (h.2.2.1 0).1⟩

/-! ## Create-path elimination lemmas -/

theorem autoCode_ok_shape (reg : Registry) (rand : Nat → Nat → Nat) (cc : String)
    (h : autoCode reg rand = Except.ok cc) :
    ∃ i, i < maxAttempts ∧ cc = generateRandomCode (rand i) ∧
      findUnique reg cc = none := by
  unfold autoCode at h
  cases hg : genLoop reg (fun i => generateRandomCode (rand i)) 0 with
  | none => rw [hg] at h; simp at h
  | some code =>
    rw [hg] at h
    simp at h
    obtain ⟨hn, i, -, hi, hc⟩ :=
      genLoop_sound reg (fun i => generateRandomCode (rand i)) maxAttempts 0
        (by omega) code hg
    subst h
    exact ⟨i, hi, hc, hn⟩

theorem chooseCode_ok (reg : Registry) (c : Option String)
    (rand : Nat → Nat → Nat) (cc : String)
    (h : chooseCode reg c rand = Except.ok cc) :
    isValidCode cc = true ∧ findUnique reg cc = none := by
  unfold chooseCode at h
  by_cases ht : codeTruthy c = true
  · simp only [ht, if_true] at h
    by_cases hv : isValidCode (c.getD ("")) = true
    · simp only [hv, not_true] at h
      simp at h
      by_cases hex : (findUnique reg (c.getD (""))).isSome = true
      · simp [hex] at h
      · simp [hex] at h
        subst h
        exact ⟨hv, Option.not_isSome_iff_eq_none.mp hex⟩
    · simp [hv] at h
  · simp only [Bool.not_eq_true] at ht
    simp only [ht, Bool.false_eq_true, if_false] at h
    obtain ⟨i, -, hc, hn⟩ := autoCode_ok_shape reg rand cc h
    exact ⟨hc ▸ isValidCode_generateRandomCode (rand i), hn⟩

theorem chooseCode_error_kinds (reg : Registry) (c : Option String)
    (rand : Nat → Nat → Nat) (e : ApiError)
    (h : chooseCode reg c rand = Except.error e) :
    e = ApiError.invalidCode ∨ e = ApiError.codeConflict ∨
      e = ApiError.exhaustedCodeSpace := by
  unfold chooseCode at h
  by_cases ht : codeTruthy c = true
  · simp only [ht, if_true] at h
    by_cases hv : isValidCode (c.getD ("")) = true
    · simp only [hv, not_true] at h
      simp at h
      by_cases hex : (findUnique reg (c.getD (""))).isSome = true
      · simp [hex] at h
        exact Or.inr (Or.inl h.symm)
      · simp [hex] at h
    · simp [hv] at h
      exact Or.inl h.symm
  · simp only [Bool.not_eq_true] at ht
    simp only [ht, Bool.false_eq_true, if_false] at h
    unfold autoCode at h
    cases hg : genLoop reg (fun i => generateRandomCode (rand i)) 0 with
    | none =>
      rw [hg] at h
      simp at h
      exact Or.inr (Or.inr h.symm)
    | some code => rw [hg] at h; simp at h

theorem autoCode_error (reg : Registry) (rand : Nat → Nat → Nat) (e : ApiError)
    (h : autoCode reg rand = Except.error e) : e = ApiError.exhaustedCodeSpace := by
  unfold autoCode at h
  cases hg : genLoop reg (fun i => generateRandomCode (rand i)) 0 with
  | none =>
    rw [hg] at h
    simp at h
    exact h.symm
  | some code => rw [hg] at h; simp at h

theorem genLoop_first_free (reg : Registry) (cand : Nat → String)
    (hfree : (findUnique reg (cand 0)).isSome = false) :
    genLoop reg cand 0 = some (cand 0) := by
  rw [genLoop]
  simp [maxAttempts, hfree]

theorem autoCode_first_free (reg : Registry) (rand : Nat → Nat → Nat)
    (hfree : (findUnique reg (generateRandomCode (rand 0))).isSome = false) :
    autoCode reg rand = Except.ok (generateRandomCode (rand 0)) := by
  unfold autoCode
  rw [genLoop_first_free reg _ hfree]

theorem create_ok_elim {reg reg' : Registry} {t c : Option String}
    {rand : Nat → Nat → Nat} {now : Nat} {newId : String} {link : Link}
    (h : create reg t c rand now newId = (reg', Except.ok link)) :
    ∃ u cc, t = some u ∧ u ≠ "" ∧ isValidUrl u = true ∧
      chooseCode reg c rand = Except.ok cc ∧
      link.id = newId ∧ link.code = cc ∧ link.targetUrl = u ∧
      link.clicks = 0 ∧ link.lastClicked = none ∧
      link.createdAt = now ∧ link.updatedAt = now ∧
      reg' = reg ++ [link] := by
  unfold create at h
  cases t with
  | none => simp at h
  | some u =>
    by_cases hue : u = ""
    · simp [hue] at h
    · simp only [hue, if_false] at h
      simp at h
      by_cases hvu : isValidUrl u = true
      · simp only [hvu, not_true] at h
        simp at h
        cases hcc : chooseCode reg c rand with
        | error e => rw [hcc] at h; simp at h
        | ok cc =>
          rw [hcc] at h
          simp at h
          obtain ⟨hreg, hlink⟩ := h
          refine ⟨u, cc, rfl, hue, hvu, rfl, ?_⟩
          rw [← hlink]
          exact ⟨rfl, rfl, rfl, rfl, rfl, rfl, rfl, by rw [← hreg, hlink]⟩
      · simp [hvu] at h

/-! ## C9 : create success postcondition -/

/-- The Link produced by an auto-generated create on the empty registry with
all-zero draws at time 3. -/
def createdAAA : Link :=
  { id := "id7", code := "AAAAAA", targetUrl := "https://example.com/",
    clicks := 0, lastClicked := none, createdAt := 3, updatedAt := 3 }

/-- C9: every successful `create` returns a Link with `clicks = 0`,
`lastClicked = null`, `createdAt = updatedAt =` the creation time, the given
`targetUrl`, and a code matching `[A-Za-z0-9]{6,8}` that no pre-existing live
Link holds; the new state is the old rows unchanged plus exactly this one new
Link appended. -/
theorem create_success_postcondition (reg reg' : Registry) (t c : Option String)
    (rand : Nat → Nat → Nat) (now : Nat) (newId : String) (link : Link)
    (h : create reg t c rand now newId = (reg', Except.ok link)) :
    link.clicks = 0 ∧ link.lastClicked = none ∧
    link.createdAt = now ∧ link.updatedAt = now ∧
    isValidCode link.code = true ∧
    findUnique reg link.code = none ∧
    (∀ u, t = some u → link.targetUrl = u) ∧
    reg' = reg ++ [link] := by
  obtain ⟨u, cc, hteq, -, -, hcc, -, hcode, hturl, hclicks, hlast, hcreated,
    hupdated, hreg⟩ := create_ok_elim h
  obtain ⟨hvalid, hfree⟩ := chooseCode_ok reg c rand cc hcc
  refine ⟨hclicks, hlast, hcreated, hupdated, hcode ▸ hvalid, hcode ▸ hfree,
    ?_, hreg⟩
  intro u' hu'
  rw [hteq] at hu'
  cases hu'
  exact hturl

/-- The auto-generated create on the empty registry with all-zero draws
evaluates to `createdAAA` (the retry loop succeeds on its first candidate). -/
theorem createdAAA_eq :
    create [] (some ("https://example.com/")) none (fun _ _ => 0) 3 ("id7") =
      ([createdAAA], Except.ok createdAAA) := by
  have hfree : (findUnique ([] : Registry)
      (generateRandomCode (fun _ => (0 : Nat)))).isSome = false := rfl
  have h := autoCode_first_free [] (fun _ _ => (0 : Nat)) hfree
  rw [show generateRandomCode (fun _ => (0 : Nat)) = "AAAAAA" by decide] at h
  have hv : isValidUrl ("https://example.com/") = true := by decide
  simp [create, chooseCode, codeTruthy, h, createdAAA, hv]

/-- Witness for C9: a concrete successful auto-generated create on the empty
registry (all-zero draws give the code `"AAAAAA"`). -/
theorem create_success_postcondition_witness :
    (createdAAA.clicks = 0 ∧ createdAAA.lastClicked = none ∧
      createdAAA.createdAt = 3 ∧ createdAAA.updatedAt = 3 ∧
      isValidCode createdAAA.code = true ∧
      findUnique [] createdAAA.code = none ∧
      (∀ u, (some ("https://example.com/") : Option String) = some u →
        createdAAA.targetUrl = u) ∧
      [createdAAA] = [] ++ [createdAAA]) :=
  create_success_postcondition [] [createdAAA]
    (some ("https://example.com/")) none (fun _ _ => 0) 3 ("id7") createdAAA
    createdAAA_eq

/-! ## C10 : empty requested code means auto-generation -/

/-- C10: supplying the empty string as the requested code is exactly the
no-code case — `if (customCode)` is falsy on `""` — so `create` behaves
identically to an absent code: it never fails with `InvalidCode`, and any
Link it returns carries an auto-generated 6-character code. -/
theorem empty_code_same_as_absent (reg : Registry) (t : Option String)
    (rand : Nat → Nat → Nat) (now : Nat) (newId : String) :
    create reg t (some ("")) rand now newId = create reg t none rand now newId ∧
    (create reg t (some ("")) rand now newId).2 ≠
      Except.error ApiError.invalidCode ∧
    (∀ reg' link, create reg t (some ("")) rand now newId =
      (reg', Except.ok link) → link.code.length = 6) := by
  have hcc : chooseCode reg (some ("")) rand = chooseCode reg none rand := by
    simp [chooseCode, codeTruthy]
  have h1 : create reg t (some ("")) rand now newId =
      create reg t none rand now newId := by
    unfold create
    cases t with
    | none => rfl
    | some u => rw [hcc]
  refine ⟨h1, ?_, ?_⟩
  · rw [h1]
    intro hbad
    unfold create at hbad
    cases t with
    | none => simp at hbad
    | some u =>
      by_cases hue : u = ""
      · simp [hue] at hbad
      · simp only [hue, if_false] at hbad
        simp at hbad
        by_cases hvu : isValidUrl u = true
        · simp only [hvu, not_true] at hbad
          simp at hbad
          cases hce : chooseCode reg none rand with
          | error e =>
            rw [hce] at hbad
            simp at hbad
            have hca : chooseCode reg none rand = autoCode reg rand := by
              simp [chooseCode, codeTruthy]
            have he : e = ApiError.exhaustedCodeSpace :=
              autoCode_error reg rand e (hca ▸ hce)
            exact absurd hbad (by simp [he])
          | ok cc => rw [hce] at hbad; simp at hbad
        · simp [hvu] at hbad
  · intro reg' link h
    obtain ⟨-, cc, -, -, -, hcc', -, hcode, -⟩ := create_ok_elim h
    have hauto : chooseCode reg (some ("")) rand = autoCode reg rand := by
      simp [chooseCode, codeTruthy]
    rw [hauto] at hcc'
    obtain ⟨i, -, hgen, -⟩ := autoCode_ok_shape reg rand cc hcc'
    rw [hcode, hgen]
    exact length_generateRandomCode (rand i)

/-- Witness for C10 (for its success-implication conjunct): the concrete
create with `code = ""` on the empty registry succeeds with the 6-character
auto-generated code `"AAAAAA"`. -/
theorem empty_code_same_as_absent_witness :
    createdAAA.code.length = 6 := by
  have h := empty_code_same_as_absent [] (some ("https://example.com/"))
    (fun _ _ => 0) 3 ("id7")
  exact h.2.2 [createdAAA] createdAAA (h.1.trans createdAAA_eq)

/-! ## C8 : requested-code format validation -/

/-- Counterexample to C8 as stated: the empty string is a supplied
`requestedCode` that does not match `^[A-Za-z0-9]{6,8}$`, yet `create` does
not fail with `InvalidCode` — `if (customCode)` is falsy on `""`, so the call
succeeds via auto-generation. -/
theorem empty_requested_code_not_rejected :
    isValidCode ("") = false ∧
    (create [] (some ("https://example.com/")) (some ("")) (fun _ _ => 0)
        3 ("id7")).2 ≠ Except.error ApiError.invalidCode ∧
    create [] (some ("https://example.com/")) (some ("")) (fun _ _ => 0) 3 ("id7") =
      ([createdAAA], Except.ok createdAAA) := by
  have hcc : chooseCode [] (some ("")) (fun _ _ => (0 : Nat)) =
      chooseCode [] none (fun _ _ => (0 : Nat)) := by
    simp [chooseCode, codeTruthy]
  have h1 : create [] (some ("https://example.com/")) (some (""))
        (fun _ _ => (0 : Nat)) 3 ("id7") =
      create [] (some ("https://example.com/")) none
        (fun _ _ => (0 : Nat)) 3 ("id7") := by
    unfold create
    rw [hcc]
  have h2 := h1.trans createdAAA_eq
  refine ⟨rfl, ?_, h2⟩
  rw [h2]
  simp

/-- C8 amended: for every supplied NON-EMPTY `requestedCode` (and a valid,
non-empty target, which is validated first), `create` fails with `InvalidCode`
iff the code does not match `^[A-Za-z0-9]{6,8}$`, and when it does fail the
state is returned untouched — the rejection precedes any storage write.
(The empty string is instead treated as "no code supplied"; see the
counterexample.) -/
theorem invalid_code_iff_bad_format (reg : Registry) (u c : String)
    (rand : Nat → Nat → Nat) (now : Nat) (newId : String)
    (hcne : c ≠ "") (hu : isValidUrl u = true) (hue : u ≠ "") :
    ((create reg (some u) (some c) rand now newId).2 =
        Except.error ApiError.invalidCode ↔ isValidCode c = false) ∧
    (isValidCode c = false →
      create reg (some u) (some c) rand now newId =
        (reg, Except.error ApiError.invalidCode)) := by
  have hpart : isValidCode c = false →
      create reg (some u) (some c) rand now newId =
        (reg, Except.error ApiError.invalidCode) := by
    intro hv
    simp [create, hue, hu, chooseCode, codeTruthy, hcne, hv]
  refine ⟨⟨?_, fun hv => by rw [hpart hv]⟩, hpart⟩
  intro h
  by_cases hv : isValidCode c = true
  · exfalso
    by_cases hex : (findUnique reg c).isSome = true <;>
      simp [create, hue, hu, chooseCode, codeTruthy, hcne, hv, hex] at h
  · simpa using hv

/-- Witness for (amended) C8: the too-short code `"ab"` with a valid target is
rejected with `InvalidCode`, state untouched. -/
theorem invalid_code_iff_bad_format_witness :
    create [] (some ("https://example.com/")) (some ("ab")) (fun _ _ => 0)
        0 ("id0") = ([], Except.error ApiError.invalidCode) := by
  have h := invalid_code_iff_bad_format [] ("https://example.com/") "ab"
    (fun _ _ => 0) 0 ("id0") (by decide) (by decide) (by decide)
  exact h.2 (by decide)

/-! ## C6 : target-URL validation -/

/-- Counterexample to C6 as stated: `"mailto:"` parses (it has a valid scheme)
but has no host under any reading — there is nothing after the colon — so per
the claim `create` must fail with `InvalidTarget`; but `new URL("mailto:")`
succeeds (non-special schemes need no host), `isValidUrl` returns true, and
`create` accepts the target. -/
theorem hostless_url_accepted :
    specValidUrl ("mailto:") = false ∧
    urlParses ("mailto:") = true ∧
    (create [] (some ("mailto:")) none (fun _ _ => 0) 3 ("id7")).2 ≠
      Except.error ApiError.invalidTarget := by
  have hfree : (findUnique ([] : Registry)
      (generateRandomCode (fun _ => (0 : Nat)))).isSome = false := rfl
  have h := autoCode_first_free [] (fun _ _ => (0 : Nat)) hfree
  have hv : isValidUrl ("mailto:") = true := by decide
  refine ⟨rfl, rfl, ?_⟩
  intro hbad
  rw [show generateRandomCode (fun _ => (0 : Nat)) = "AAAAAA" by decide] at h
  simp [create, chooseCode, codeTruthy, hv, h] at hbad

/-- C6 amended: for every non-empty `targetUrl`, `create` fails with
`InvalidTarget` iff the WHATWG URL constructor fails on it (no valid scheme,
or a special scheme without a host) — a host is NOT required for non-special
schemes such as `mailto:`; when it fails, the state is returned untouched
(the rejection precedes any storage access).  A missing or empty `targetUrl`
is rejected with the separate required-target 400 error instead. -/
theorem invalid_target_iff_unparseable (reg : Registry) (u : String)
    (c : Option String) (rand : Nat → Nat → Nat) (now : Nat) (newId : String)
    (hue : u ≠ "") :
    ((create reg (some u) c rand now newId).2 =
        Except.error ApiError.invalidTarget ↔ urlParses u = false) ∧
    (urlParses u = false →
      create reg (some u) c rand now newId =
        (reg, Except.error ApiError.invalidTarget)) := by
  have hpart : urlParses u = false →
      create reg (some u) c rand now newId =
        (reg, Except.error ApiError.invalidTarget) := by
    intro hv
    simp [create, hue, isValidUrl, hv]
  refine ⟨⟨?_, fun hv => by rw [hpart hv]⟩, hpart⟩
  intro h
  by_cases hv : urlParses u = true
  · exfalso
    cases hcc : chooseCode reg c rand with
    | error e =>
      rcases chooseCode_error_kinds reg c rand e hcc with he | he | he <;>
        simp [create, hue, isValidUrl, hv, hcc, he] at h
    | ok cc => simp [create, hue, isValidUrl, hv, hcc] at h
  · simpa using hv

/-- Witness for (amended) C6: `"not a url"` has no scheme, so `create` rejects
it with `InvalidTarget`, state untouched. -/
theorem invalid_target_iff_unparseable_witness :
    create [] (some ("not a url")) none (fun _ _ => 0) 0 ("id0") =
      ([], Except.error ApiError.invalidTarget) := by
  have h := invalid_target_iff_unparseable [] ("not a url") none
    (fun _ _ => 0) 0 ("id0") (by decide)
  exact h.2 (by decide)

/-! ## C1 : no lost updates under concurrent resolves

The redirect handler performs two storage-layer operations per call: the
`findUnique` read and the single atomic `update { clicks: { increment: 1 } }`
write (never a read-compute-write of the caller's local copy).  Concurrency is
modelled by interleaving those atomic storage operations of simultaneous
calls in every possible order. -/

/-- The atomic storage operations of the redirect handler
(`src/unnamed/part_002`): `find c` is `prisma.link.findUnique` (a pure read);
`updateClick c t` is the atomic
`prisma.link.update({ clicks: { increment: 1 }, lastClicked: t })`. -/
inductive StoreOp where
  | find (c : String)
  | updateClick (c : String) (t : Nat)
deriving Repr, DecidableEq

/-- Effect of one storage operation on the Link table: the read changes
nothing; the update is `updateClickMap`. -/
def applyOp (reg : Registry) : StoreOp → Registry
  | StoreOp.find _ => reg
  | StoreOp.updateClick c t => updateClickMap reg c t

/-- Effect of a whole schedule of storage operations, first to last. -/
def applyOps (reg : Registry) (ops : List StoreOp) : Registry :=
  ops.foldl applyOp reg

/-- The storage operations of one successful `resolve(code)` call at time `t`:
the `findUnique` read followed by the atomic click update. -/
def resolveOps (c : String) (t : Nat) : List StoreOp :=
  [StoreOp.find c, StoreOp.updateClick c t]

/-- Recognizes the click-update write. -/
def isUpdateClick : StoreOp → Bool
  | StoreOp.updateClick _ _ => true
  | _ => false

/-- Scheduling relation `Interleaving ths s`: the schedule `s` is an arbitrary interleaving of the
operation sequences `ths` of concurrently running calls — at every step the
scheduler runs the next pending operation of any one call, preserving each
call's own program order (the calls are an unordered multiset). -/
inductive Interleaving : Multiset (List StoreOp) → List StoreOp → Prop where
  | nil : Interleaving 0 []
  | drop (ths : Multiset (List StoreOp)) (s : List StoreOp) :
      Interleaving ths s → Interleaving ([] ::ₘ ths) s
  | take (op : StoreOp) (rest : List StoreOp)
      (ths : Multiset (List StoreOp)) (s : List StoreOp) :
      Interleaving (rest ::ₘ ths) s →
      Interleaving ((op :: rest) ::ₘ ths) (op :: s)

theorem interleaving_mem {ths : Multiset (List StoreOp)} {s : List StoreOp}
    (h : Interleaving ths s) : ∀ op ∈ s, ∃ th ∈ ths, op ∈ th := by
  induction h with
  | nil =>
    intro op hop
    simp at hop
  | drop ths s hI ih =>
    intro op hop
    obtain ⟨th, hth, hopth⟩ := ih op hop
    exact ⟨th, Multiset.mem_cons_of_mem hth, hopth⟩
  | take op rest ths s hI ih =>
    intro op' hop'
    rcases List.mem_cons.mp hop' with rfl | hmem
    · exact ⟨op' :: rest, Multiset.mem_cons_self _ _, List.mem_cons_self _ _⟩
    · obtain ⟨th, hth, hopth⟩ := ih op' hmem
      rcases Multiset.mem_cons.mp hth with rfl | hin
      · exact ⟨op :: th, Multiset.mem_cons_self _ _,
          List.mem_cons_of_mem _ hopth⟩
      · exact ⟨th, Multiset.mem_cons_of_mem hin, hopth⟩

theorem interleaving_countP {ths : Multiset (List StoreOp)} {s : List StoreOp}
    (h : Interleaving ths s) (p : StoreOp → Bool) :
    s.countP p = (ths.map (fun th => th.countP p)).sum := by
  induction h with
  | nil => simp
  | drop ths s hI ih => simpa using ih
  | take op rest ths s hI ih =>
    simp only [List.countP_cons, Multiset.map_cons, Multiset.sum_cons] at ih ⊢
    omega

theorem applyOps_clicks (c : String) :
    ∀ (s : List StoreOp) (reg : Registry) (link : Link),
      (∀ op ∈ s, (∃ c', op = StoreOp.find c') ∨
        ∃ t, op = StoreOp.updateClick c t) →
      findUnique reg c = some link →
      ∃ link', findUnique (applyOps reg s) c = some link' ∧
        link'.clicks = link.clicks + s.countP isUpdateClick ∧
        link'.code = link.code ∧ link'.targetUrl = link.targetUrl := by
  intro s
  induction s with
  | nil =>
    intro reg link _ hf
    exact ⟨link, hf, by simp, rfl, rfl⟩
  | cons op rest ih =>
    intro reg link hops hf
    rcases hops op (List.mem_cons_self _ _) with ⟨c', rfl⟩ | ⟨t, rfl⟩
    · obtain ⟨link', h1, h2, h3, h4⟩ :=
        ih reg link (fun op h => hops op (List.mem_cons_of_mem _ h)) hf
      refine ⟨link', ?_, ?_, h3, h4⟩
      · simpa [applyOps, applyOp] using h1
      · simpa [List.countP_cons, isUpdateClick] using h2
    · have hf' : findUnique (updateClickMap reg c t) c =
          some (bumpClick t link) := by
        rw [findUnique_updateClickMap, hf]
        rfl
      obtain ⟨link', h1, h2, h3, h4⟩ :=
        ih (updateClickMap reg c t) (bumpClick t link)
          (fun op h => hops op (List.mem_cons_of_mem _ h)) hf'
      refine ⟨link', ?_, ?_, by rw [h3]; rfl, by rw [h4]; rfl⟩
      · simpa [applyOps, applyOp] using h1
      · rw [h2]
        simp [bumpClick, List.countP_cons, isUpdateClick]
        omega

/-- C1: for every existing Link and any number of concurrent `resolve(code)`
calls against it (`times` lists the resolution timestamps, one per call, so
`N = times.length`), under EVERY interleaving of the calls' atomic storage
operations the final `clicks` equals the initial `clicks` plus exactly `N` —
no resolution is lost or double-counted — and the Link's `code` and
`targetUrl` are untouched.  The guarantee holds because the write is a single
atomic counter increment at the storage layer. -/
theorem concurrent_resolves_add_exactly_N (times : List Nat) (c : String)
    (reg : Registry) (link : Link) (s : List StoreOp)
    (hsched : Interleaving (↑(times.map (resolveOps c))) s)
    (hlink : findUnique reg c = some link) :
    ∃ link', findUnique (applyOps reg s) c = some link' ∧
      link'.clicks = link.clicks + times.length ∧
      link'.code = link.code ∧ link'.targetUrl = link.targetUrl := by
  have hops : ∀ op ∈ s, (∃ c', op = StoreOp.find c') ∨
      ∃ t, op = StoreOp.updateClick c t := by
    intro op hop
    obtain ⟨th, hth, hopth⟩ := interleaving_mem hsched op hop
    rw [Multiset.mem_coe] at hth
    obtain ⟨t, -, rfl⟩ := List.mem_map.mp hth
    simp [resolveOps] at hopth
    rcases hopth with rfl | rfl
    · exact Or.inl ⟨c, rfl⟩
    · exact Or.inr ⟨t, rfl⟩
  have hcount : s.countP isUpdateClick = times.length := by
    rw [interleaving_countP hsched isUpdateClick]
    rw [Multiset.map_coe, Multiset.sum_coe, List.map_map]
    have hfun : ((fun th => th.countP isUpdateClick) ∘ resolveOps c) =
        fun _ => (1 : Nat) := funext (fun t => rfl)
    rw [hfun]
    simp
  obtain ⟨link', h1, h2, h3, h4⟩ := applyOps_clicks c s reg link hops hlink
  exact ⟨link', h1, by rw [h2, hcount], h3, h4⟩

/-- A fully interleaved schedule of two concurrent resolves of `"abc123"`
(at times 5 and 7): both reads happen before both atomic updates. -/
def schedEx : List StoreOp :=
  [StoreOp.find ("abc123"), StoreOp.find ("abc123"),
   StoreOp.updateClick ("abc123") 5, StoreOp.updateClick ("abc123") 7]

/-- Witness for C1: two concurrent resolves of `linkEx`'s code under the
read-read-update-update interleaving land exactly two clicks. -/
theorem concurrent_resolves_add_exactly_N_witness :
    ∃ link', findUnique (applyOps [linkEx] schedEx) ("abc123") = some link' ∧
      link'.clicks = linkEx.clicks + [5, 7].length ∧
      link'.code = linkEx.code ∧ link'.targetUrl = linkEx.targetUrl := by
  have hsched : Interleaving (↑([5, 7].map (resolveOps ("abc123")))) schedEx := by
    have h0 : Interleaving 0 [] := Interleaving.nil
    have h1 : Interleaving (([] : List StoreOp) ::ₘ 0) [] :=
      Interleaving.drop _ _ h0
    have h2 : Interleaving (([] : List StoreOp) ::ₘ ([] : List StoreOp) ::ₘ 0)
        [] := Interleaving.drop _ _ h1
    have h3 : Interleaving ([StoreOp.updateClick ("abc123") 7] ::ₘ
        ([] : List StoreOp) ::ₘ 0) [StoreOp.updateClick ("abc123") 7] :=
      Interleaving.take _ _ _ _ h2
    have h3' : Interleaving (([] : List StoreOp) ::ₘ
        [StoreOp.updateClick ("abc123") 7] ::ₘ 0)
        [StoreOp.updateClick ("abc123") 7] := Multiset.cons_swap _ _ _ ▸ h3
    have h4 : Interleaving ([StoreOp.updateClick ("abc123") 5] ::ₘ
        [StoreOp.updateClick ("abc123") 7] ::ₘ 0)
        [StoreOp.updateClick ("abc123") 5, StoreOp.updateClick ("abc123") 7] :=
      Interleaving.take _ _ _ _ h3'
    have h4' : Interleaving ([StoreOp.updateClick ("abc123") 7] ::ₘ
        [StoreOp.updateClick ("abc123") 5] ::ₘ 0)
        [StoreOp.updateClick ("abc123") 5, StoreOp.updateClick ("abc123") 7] :=
      Multiset.cons_swap _ _ _ ▸ h4
    have h5 : Interleaving (resolveOps ("abc123") 7 ::ₘ
        [StoreOp.updateClick ("abc123") 5] ::ₘ 0)
        [StoreOp.find ("abc123"),
         StoreOp.updateClick ("abc123") 5, StoreOp.updateClick ("abc123") 7] :=
      Interleaving.take _ _ _ _ h4'
    have h5' : Interleaving ([StoreOp.updateClick ("abc123") 5] ::ₘ
        resolveOps ("abc123") 7 ::ₘ 0)
        [StoreOp.find ("abc123"),
         StoreOp.updateClick ("abc123") 5, StoreOp.updateClick ("abc123") 7] :=
      Multiset.cons_swap _ _ _ ▸ h5
    have h6 : Interleaving (resolveOps ("abc123") 5 ::ₘ
        resolveOps ("abc123") 7 ::ₘ 0) schedEx :=
      Interleaving.take _ _ _ _ h5'
    exact h6
  have h := concurrent_resolves_add_exactly_N [5, 7] ("abc123") [linkEx] linkEx
    schedEx hsched rfl
  exact h

end TinyLink
